import Mathlib

/-! # Verification of the circuits socket components (`circuits/net/sockets.py`)

Shallow embedding of the Client, Server and UDPServer socket components:
per-endpoint state records, OS calls (`send`, `recv`, `accept`, `connect`)
modelled as oracle results passed to the handlers, poller interaction
modelled as state fields plus an action transcript, and `fire`d events
collected in an output list. -/

/-! ## Linux errno constants (as imported by sockets.py from `errno`) -/

def EPERM : Nat := 1

def EINTR : Nat := 4

def EBADF : Nat := 9

def EAGAIN : Nat := 11

def EWOULDBLOCK : Nat := 11

def ENOMEM : Nat := 12

def EINVAL : Nat := 22

def ENFILE : Nat := 23

def EMFILE : Nat := 24

def EPIPE : Nat := 32

def ECONNABORTED : Nat := 103

def ENOBUFS : Nat := 105

def EISCONN : Nat := 106

def ENOTCONN : Nat := 107

def ECONNREFUSED : Nat := 111

def EALREADY : Nat := 114

def EINPROGRESS : Nat := 115

/-! ## Bytes et al. -/

/-- A byte string (`bytes` in Python); byte values are irrelevant to the claims. -/
abbrev Bytes := List Nat

/-- A peer address `(ip, port)`; the ip is abstracted to a number. -/
abbrev Addr := Nat × Nat

/-! ## Association lists with `defaultdict(deque)` semantics

`Server._buffers` and `UDPServer._buffers` are `defaultdict(deque)`
instances: a plain lookup *inserts* a fresh empty deque for a missing key.
We model the dict as an association list (unique keys by construction) and
the implicit insertion as an explicit `atouch`. -/

/-- Dictionary lookup with the `defaultdict(deque)` default `[]`. -/
def aget {α : Type} : List (Nat × List α) → Nat → List α
  | [], _ => []
  | (k, v) :: m, k' => if k = k' then v else aget m k'

/-- `key in dict`. -/
def akey {α : Type} : List (Nat × α) → Nat → Bool
  | [], _ => false
  | (k, _) :: m, k' => if k = k' then true else akey m k'

/-- `dict[k] = v` for a key already present. -/
def aset {α : Type} : List (Nat × α) → Nat → α → List (Nat × α)
  | [], _, _ => []
  | (k, v) :: m, k', v' =>
      if k = k' then (k, v') :: aset m k' v' else (k, v) :: aset m k' v'

/-- `del dict[k]`. -/
def aerase {α : Type} : List (Nat × α) → Nat → List (Nat × α)
  | [], _ => []
  | (k, v) :: m, k' => if k = k' then aerase m k' else (k, v) :: aerase m k'

/-- The implicit insertion a `defaultdict(deque)` lookup performs on a
missing key. -/
def atouch {α : Type} (m : List (Nat × List α)) (k : Nat) : List (Nat × List α) :=
  if akey m k then m else m ++ [(k, [])]

/-- `dict[k].append(c)` on a `defaultdict(deque)`. -/
def aappend {α : Type} (m : List (Nat × List α)) (k : Nat) (c : α) :
    List (Nat × List α) :=
  aset (atouch m k) k (aget m k ++ [c])

/-- `dict[k].appendleft(c)` on a `defaultdict(deque)`. -/
def aprepend {α : Type} (m : List (Nat × List α)) (k : Nat) (c : α) :
    List (Nat × List α) :=
  aset (atouch m k) k (c :: aget m k)

theorem aget_atouch {α : Type} (m : List (Nat × List α)) (k : Nat) :
    aget (atouch m k) k = aget m k := by
  unfold atouch
  split
  · rfl
  · induction m with
    | nil => simp [aget]
    | cons hd tl ih =>
        cases hd with
        | mk k' v =>
            by_cases h : k' = k <;> simp_all [aget, akey]

theorem akey_atouch {α : Type} (m : List (Nat × List α)) (k : Nat) :
    akey (atouch m k) k = true := by
  unfold atouch
  split
  · assumption
  · induction m with
    | nil => simp [akey]
    | cons hd tl ih =>
        cases hd with
        | mk k' v =>
            by_cases h : k' = k <;> simp_all [akey]

theorem atouch_of_akey {α : Type} (m : List (Nat × List α)) (k : Nat)
    (h : akey m k = true) : atouch m k = m := by
  unfold atouch
  simp [h]

theorem akey_of_aget_ne {α : Type} (m : List (Nat × List α)) (k : Nat)
    (h : aget m k ≠ []) : akey m k = true := by
  induction m with
  | nil => simp [aget] at h
  | cons hd tl ih =>
      cases hd with
      | mk k' v =>
          by_cases hk : k' = k <;> simp_all [aget, akey]

theorem aget_aset_of_akey {α : Type} (m : List (Nat × List α)) (k : Nat)
    (v : List α) (h : akey m k = true) : aget (aset m k v) k = v := by
  induction m with
  | nil => simp [akey] at h
  | cons hd tl ih =>
      cases hd with
      | mk k' w =>
          by_cases hk : k' = k <;> simp_all [aget, aset, akey]

theorem akey_aset {α : Type} (m : List (Nat × List α)) (k : Nat) (v : List α) :
    akey (aset m k v) k = akey m k := by
  induction m with
  | nil => simp [aset]
  | cons hd tl ih =>
      cases hd with
      | mk k' w =>
          by_cases hk : k' = k <;> simp_all [aset, akey]

theorem aget_aerase {α : Type} (m : List (Nat × List α)) (k : Nat) :
    aget (aerase m k) k = [] := by
  induction m with
  | nil => simp [aerase, aget]
  | cons hd tl ih =>
      cases hd with
      | mk k' w =>
          by_cases hk : k' = k <;> simp_all [aerase, aget]

theorem aget_aappend {α : Type} (m : List (Nat × List α)) (k : Nat) (c : α) :
    aget (aappend m k c) k = aget m k ++ [c] := by
  unfold aappend
  rw [aget_aset_of_akey _ _ _ (akey_atouch m k)]

/-! ## OS call results (oracles fed to the handlers) -/

/-- Result of `sock.send(data)` / `ssock.write(data)` / `sock.sendto`:
either the number of bytes the OS accepted, or a raised `SocketError`
carrying an errno. -/
inductive SendRes : Type
  | ok (nbytes : Nat)
  | err (e : Nat)
deriving DecidableEq, Repr

/-- Result of `sock.recv(bufsize)`: data (empty = peer closed) or a raised
`SocketError`. -/
inductive RecvRes : Type
  | ok (data : Bytes)
  | err (e : Nat)
deriving DecidableEq, Repr

/-! ## Client component (`class Client`) -/

/-- Poller calls a client endpoint makes (the poller is an external
collaborator; `self._sock` is implicit since a client owns one socket). -/
inductive CAct : Type
  | addReader
  | addWriter
  | removeWriter
  | discard
deriving DecidableEq, Repr

/-- Connection target of a `Connected` event: TCP passes a port number,
the UNIX-domain client passes its filesystem path (abstracted to a
number). -/
inductive ConnTarget : Type
  | port (p : Nat)
  | path (p : Nat)
deriving DecidableEq, Repr

/-- Events a client component `fire`s. -/
inductive CEvent : Type
  | connected (host : Nat) (target : ConnTarget)
  | disconnected
  | read (data : Bytes)
  | error (code : Nat)
deriving DecidableEq, Repr

/-- The mutable state of a `Client` instance (after `__init__`), plus a
`sockClosed` field recording whether `self._sock.close()` has run and the
poller's write/read interest for `self._sock` (`isWriting`,
`hasReader`). -/
structure ClientState : Type where
  buffer : List Bytes
  closeflag : Bool
  connected : Bool
  isWriting : Bool
  hasReader : Bool
  sockClosed : Bool
  host : Nat
  port : Nat
  path : Nat
deriving DecidableEq, Repr

/-- Output of one client handler: resulting state, events `fire`d, poller
actions performed, and the bytes the OS accepted onto the wire. -/
structure COut : Type where
  state : ClientState
  events : List CEvent
  acts : List CAct
  wire : Bytes
deriving DecidableEq, Repr

/-- `Client.__init__` (buffer empty, flags down, `host = "0.0.0.0"`,
`port = 0`). -/
def clientInit : ClientState :=
  { buffer := [], closeflag := false, connected := false, isWriting := false,
    hasReader := false, sockClosed := false, host := 0, port := 0, path := 0 }

namespace Client

/-- `Client._close`: returns unless connected; otherwise discards poller
interest, clears the buffer and flags, shuts the socket down and fires
`Disconnected()`. -/
def _close (s : ClientState) : COut :=
  if s.connected = false then ⟨s, [], [], []⟩
  else
    ⟨{ s with buffer := [], closeflag := false, connected := false,
              isWriting := false, hasReader := false, sockClosed := true },
     [CEvent.disconnected], [CAct.discard], []⟩

/-- `Client.close`: immediate `_close` on an empty buffer, otherwise set
the close flag. -/
def close (s : ClientState) : COut :=
  if s.buffer = [] then _close s
  else if s.closeflag = false then ⟨{ s with closeflag := true }, [], [], []⟩
  else ⟨s, [], [], []⟩

/-- `Client._read`: non-empty data fires `Read(data)`; empty data (peer
closed) takes the `close()` path; `EWOULDBLOCK` is a no-op; any other
`SocketError` fires `Error(e)` then forces `_close`. -/
def _read (s : ClientState) (r : RecvRes) : COut :=
  match r with
  | RecvRes.ok data =>
      if data ≠ [] then ⟨s, [CEvent.read data], [], []⟩
      else close s
  | RecvRes.err e =>
      if e = EWOULDBLOCK then ⟨s, [], [], []⟩
      else
        let o := _close s
        ⟨o.state, CEvent.error e :: o.events, o.acts, []⟩

/-- `Client._write`: a short send re-inserts the unsent remainder of the
chunk at the front of the buffer; `EPIPE`/`ENOTCONN` force `_close`;
any other `SocketError` fires `Error(e)`. -/
def _write (s : ClientState) (data : Bytes) (r : SendRes) : COut :=
  match r with
  | SendRes.ok nbytes =>
      if nbytes < data.length then
        ⟨{ s with buffer := data.drop nbytes :: s.buffer }, [], [],
         data.take nbytes⟩
      else ⟨s, [], [], data.take nbytes⟩
  | SendRes.err e =>
      if e ∈ [EPIPE, ENOTCONN] then _close s
      else ⟨s, [CEvent.error e], [], []⟩

/-- `Client.write`: register write-interest if absent, then append the
chunk at the tail of the buffer. -/
def write (s : ClientState) (data : Bytes) : COut :=
  if s.isWriting = false then
    ⟨{ s with isWriting := true, buffer := s.buffer ++ [data] }, [],
     [CAct.addWriter], []⟩
  else ⟨{ s with buffer := s.buffer ++ [data] }, [], [], []⟩

/-- `Client.__on_write` (the `_write` readiness handler): pop the head
chunk and `_write` it; once the buffer is empty, `_close` if the close
flag is set, else deregister write-interest if registered. -/
def _on_write (s : ClientState) (r : SendRes) : COut :=
  let o :=
    match s.buffer with
    | [] => (⟨s, [], [], []⟩ : COut)
    | data :: rest => _write { s with buffer := rest } data r
  if o.state.buffer = [] then
    if o.state.closeflag = true then
      let o2 := _close o.state
      ⟨o2.state, o.events ++ o2.events, o.acts ++ o2.acts, o.wire⟩
    else if o.state.isWriting = true then
      ⟨{ o.state with isWriting := false }, o.events,
       o.acts ++ [CAct.removeWriter], o.wire⟩
    else o
  else o

/-- `Client.__on_disconnect` (the `_disconnect` readiness handler). -/
def _on_disconnect (s : ClientState) : COut :=
  _close s

end Client

/-- Fold `Client.write` over a list of chunks. -/
def writeAll (s : ClientState) : List Bytes → ClientState
  | [] => s
  | c :: cs => writeAll (Client.write s c).state cs

/-- Run the write pump over a list of send results, concatenating the
bytes the OS accepted onto the wire. -/
def pump (s : ClientState) : List SendRes → ClientState × Bytes
  | [] => (s, [])
  | r :: rs =>
      let o := Client._on_write s r
      let p := pump o.state rs
      (p.1, o.wire ++ p.2)

/-! ## Client write-pump lemmas -/

theorem onwrite_ok_flatten (s : ClientState) (n : Nat) (h : s.closeflag = false) :
    (Client._on_write s (SendRes.ok n)).state.closeflag = false ∧
    (Client._on_write s (SendRes.ok n)).wire ++
      (Client._on_write s (SendRes.ok n)).state.buffer.flatten
      = s.buffer.flatten := by
  cases hb : s.buffer with
  | nil =>
      by_cases hw : s.isWriting = true <;>
        simp [Client._on_write, Client._close, hb, h, hw]
  | cons d rest =>
      by_cases hn : n < d.length
      · simp only [Client._on_write, Client._write, hb, hn, if_pos]
        simp [h, ← List.append_assoc, List.take_append_drop]
      · have hd : d.take n = d := List.take_of_length_le (Nat.le_of_not_lt hn)
        simp only [Client._on_write, Client._write, hb, hn, if_neg, if_false]
        cases hr : rest with
        | nil =>
            by_cases hw : s.isWriting = true <;> simp [h, hd, hw]
        | cons d2 r2 => simp [h, hd]

theorem pump_ok_flatten (ns : List Nat) : ∀ s : ClientState,
    s.closeflag = false →
    (pump s (ns.map SendRes.ok)).1.closeflag = false ∧
    (pump s (ns.map SendRes.ok)).2 ++
      (pump s (ns.map SendRes.ok)).1.buffer.flatten = s.buffer.flatten := by
  induction ns with
  | nil =>
      intro s h
      exact ⟨h, by simp [pump]⟩
  | cons n ns ih =>
      intro s h
      obtain ⟨h1, h2⟩ := onwrite_ok_flatten s n h
      obtain ⟨ih1, ih2⟩ := ih _ h1
      refine ⟨ih1, ?_⟩
      simp only [List.map_cons, pump]
      rw [List.append_assoc, ih2, h2]

theorem writeAll_fields (cs : List Bytes) : ∀ s : ClientState,
    (writeAll s cs).buffer = s.buffer ++ cs ∧
    (writeAll s cs).closeflag = s.closeflag := by
  induction cs with
  | nil => intro s; simp [writeAll]
  | cons c cs ih =>
      intro s
      simp only [writeAll, Client.write]
      by_cases h : s.isWriting = false <;> simp [h, ih]

/-- C1: chunks written before any write-ready event are transmitted, across
however many partial sends, as exactly their concatenation: the wire bytes
plus the bytes still buffered always equal `chunk_1 ++ ... ++ chunk_n`, and
once the pump drains the buffer the wire holds the concatenation exactly
once. -/
theorem client_write_ordering (chunks : List Bytes) (ns : List Nat) :
    (pump (writeAll clientInit chunks) (ns.map SendRes.ok)).2 ++
      (pump (writeAll clientInit chunks) (ns.map SendRes.ok)).1.buffer.flatten
      = chunks.flatten ∧
    ((pump (writeAll clientInit chunks) (ns.map SendRes.ok)).1.buffer = [] →
      (pump (writeAll clientInit chunks) (ns.map SendRes.ok)).2
        = chunks.flatten) := by
  obtain ⟨hb, hf⟩ := writeAll_fields chunks clientInit
  have h0 : (writeAll clientInit chunks).closeflag = false := by
    rw [hf]; rfl
  obtain ⟨h1, h2⟩ := pump_ok_flatten ns _ h0
  have hmain : (pump (writeAll clientInit chunks) (ns.map SendRes.ok)).2 ++
      (pump (writeAll clientInit chunks) (ns.map SendRes.ok)).1.buffer.flatten
      = chunks.flatten := by
    rw [h2, hb]
    simp [clientInit]
  refine ⟨hmain, fun he => ?_⟩
  rw [he] at hmain
  simpa using hmain

/-- Witness for C1: two chunks drained across three rounds with one short
send end up on the wire as their exact concatenation. -/
theorem client_write_ordering_witness :
    (pump (writeAll clientInit [[1, 2], [3]]) ([1, 5, 5].map SendRes.ok)).1.buffer
      = [] ∧
    (pump (writeAll clientInit [[1, 2], [3]]) ([1, 5, 5].map SendRes.ok)).2
      = [1, 2, 3] := by
  refine ⟨by decide, ?_⟩
  have h := (client_write_ordering [[1, 2], [3]] [1, 5, 5]).2 (by decide)
  simpa using h

/-- C10: closing a client whose connected flag is down and whose buffer is
empty is a complete no-op: same state, no events, no poller calls. -/
theorem close_unconnected_noop (s : ClientState)
    (h1 : s.connected = false) (h2 : s.buffer = []) :
    Client.close s = ⟨s, [], [], []⟩ := by
  simp [Client.close, Client._close, h1, h2]

/-- Witness for C10 at the freshly initialized client. -/
theorem close_unconnected_noop_witness :
    Client.close clientInit = ⟨clientInit, [], [], []⟩ :=
  close_unconnected_noop clientInit rfl rfl

set_option maxHeartbeats 1000000 in
theorem onwrite_remove_guard (s : ClientState) (r : SendRes) :
    CAct.removeWriter ∈ (Client._on_write s r).acts → s.isWriting = true := by
  rcases s with ⟨buf, cf, co, iw, hr, sc, h1, p1, pa⟩
  cases iw
  · intro h
    exfalso
    rcases r with n | e
    · cases buf with
      | nil =>
          cases cf <;> cases co <;>
            simp_all [Client._on_write, Client._close]
      | cons d rest =>
          by_cases hn : n < d.length
          · cases cf <;> cases co <;>
              simp_all [Client._on_write, Client._write, Client._close,
                if_pos hn]
          · cases rest <;> cases cf <;> cases co <;>
              simp_all [Client._on_write, Client._write, Client._close,
                if_neg hn]
    · by_cases he : e ∈ [EPIPE, ENOTCONN]
      · cases buf with
        | nil =>
            cases cf <;> cases co <;>
              simp_all [Client._on_write, Client._write, Client._close,
                if_pos he]
        | cons d rest =>
            cases rest <;> cases cf <;> cases co <;>
              simp_all [Client._on_write, Client._write, Client._close,
                if_pos he]
      · cases buf with
        | nil =>
            cases cf <;> cases co <;>
              simp_all [Client._on_write, Client._write, Client._close,
                if_neg he]
        | cons d rest =>
            cases rest <;> cases cf <;> cases co <;>
              simp_all [Client._on_write, Client._write, Client._close,
                if_neg he]
  · intro _
    rfl

/-! ## Stream client connect (`TCPClient.connect`, `UNIXClient.connect`)

The OS `connect` outcome is an oracle: `ret` models `sock.connect`
returning (`r = None`, falsy); `exn e` models a raised `SocketError(e)`.
On `EBADF`/`EINVAL` the socket is recreated and `connect_ex` retried,
whose result is the second oracle `r2`.  The TLS wrap (`secure=True`) is
outside the modelled path. -/

inductive ConnectRes : Type
  | ret
  | exn (e : Nat)
deriving DecidableEq, Repr

namespace TCPClient

/-- `TCPClient.connect(host, port)`: records host/port; an
in-progress/already-connected/would-block/interrupted errno counts as
provisionally connected; any other non-zero errno fires `Error(r)` and
returns; otherwise the endpoint is marked connected, registered for
read-readiness and `Connected(host, port)` is fired. -/
def connect (s : ClientState) (host : Nat) (port : Nat)
    (res : ConnectRes) (r2 : Nat) : COut :=
  let s1 := { s with host := host, port := port }
  let r : Nat :=
    match res with
    | ConnectRes.ret => 0
    | ConnectRes.exn e => if e ∈ [EBADF, EINVAL] then r2 else e
  if r ≠ 0 ∧ r ∉ [EISCONN, EWOULDBLOCK, EINPROGRESS, EALREADY] then
    ⟨s1, [CEvent.error r], [], []⟩
  else
    ⟨{ s1 with connected := true, hasReader := true },
     [CEvent.connected host (ConnTarget.port port)], [CAct.addReader], []⟩

end TCPClient

namespace UNIXClient

/-- `UNIXClient.connect(path)`: `connect_ex` returns the errno `r`
directly (0 on success); the branching mirrors `TCPClient.connect`, and
`Connected(gethostname(), path)` is fired with the local hostname
(oracle `hostname`). -/
def connect (s : ClientState) (path : Nat) (hostname : Nat)
    (r : Nat) : COut :=
  let s1 := { s with path := path }
  if r ≠ 0 ∧ r ∉ [EISCONN, EWOULDBLOCK, EINPROGRESS, EALREADY] then
    ⟨s1, [CEvent.error r], [], []⟩
  else
    ⟨{ s1 with connected := true, hasReader := true },
     [CEvent.connected hostname (ConnTarget.path path)], [CAct.addReader], []⟩

end UNIXClient

/-! ## Client operation traces (backpressure registration) -/

/-- One client handler invocation / application call: the readiness
handlers, the public `write`/`close`, and the two transport connects
(with their OS-result oracles). -/
inductive COp : Type
  | write (data : Bytes)
  | onWrite (r : SendRes)
  | onRead (r : RecvRes)
  | close
  | onDisconnect
  | connectT (host port : Nat) (res : ConnectRes) (r2 : Nat)
  | connectU (path hostname : Nat) (r : Nat)
deriving DecidableEq, Repr

/-- Dispatch one operation on a client. -/
def cstep (s : ClientState) (op : COp) : COut :=
  match op with
  | COp.write d => Client.write s d
  | COp.onWrite r => Client._on_write s r
  | COp.onRead r => Client._read s r
  | COp.close => Client.close s
  | COp.onDisconnect => Client._on_disconnect s
  | COp.connectT host port res r2 => TCPClient.connect s host port res r2
  | COp.connectU path hostname r => UNIXClient.connect s path hostname r

/-- Run a sequence of client operations, keeping the final state. -/
def crun (s : ClientState) : List COp → ClientState
  | [] => s
  | op :: ops => crun (cstep s op).state ops

/-- Delivery condition for one operation: a write-readiness event is only
delivered while the endpoint is connected or has no close intent
recorded; every other operation is unrestricted. -/
def okDelivery (s : ClientState) : COp → Prop
  | COp.onWrite _ => s.connected = true ∨ s.closeflag = false
  | _ => True

/-- The delivery condition imposed along a whole run. -/
def okTrace : ClientState → List COp → Prop
  | _, [] => True
  | s, op :: ops => okDelivery s op ∧ okTrace (cstep s op).state ops

set_option maxHeartbeats 1000000 in
theorem cstep_interest_inv (s : ClientState) (op : COp)
    (h : s.isWriting = true ↔ s.buffer ≠ [])
    (hd : okDelivery s op) :
    (cstep s op).state.isWriting = true ↔ (cstep s op).state.buffer ≠ [] := by
  rcases s with ⟨buf, cf, co, iw, hr, sc, h1, p1, pa⟩
  cases op with
  | write d =>
      cases iw <;> simp_all [cstep, Client.write]
  | close =>
      cases buf <;> cases cf <;> cases co <;> cases iw <;>
        simp_all [cstep, Client.close, Client._close]
  | onDisconnect =>
      cases cf <;> cases co <;> cases iw <;>
        simp_all [cstep, Client._on_disconnect, Client._close]
  | onRead r =>
      rcases r with data | e
      · cases data with
        | nil =>
            cases buf <;> cases cf <;> cases co <;> cases iw <;>
              simp_all [cstep, Client._read, Client.close, Client._close]
        | cons b bs =>
            simp_all [cstep, Client._read]
      · by_cases he : e = EWOULDBLOCK
        · simp_all [cstep, Client._read, he]
        · cases cf <;> cases co <;> cases iw <;>
            simp_all [cstep, Client._read, Client._close, he]
  | connectT host port res r2 =>
      simp only [cstep, TCPClient.connect]
      split <;> simp_all
  | connectU path hostname r =>
      simp only [cstep, UNIXClient.connect]
      split <;> simp_all
  | onWrite r =>
      simp only [okDelivery] at hd
      rcases r with n | e
      · cases buf with
        | nil =>
            cases cf <;> cases co <;> cases iw <;>
              simp_all [cstep, Client._on_write, Client._close]
        | cons d rest =>
            by_cases hn : n < d.length
            · cases cf <;> cases co <;> cases iw <;>
                simp_all [cstep, Client._on_write, Client._write, Client._close,
                  if_pos hn]
            · cases rest <;> cases cf <;> cases co <;> cases iw <;>
                simp_all [cstep, Client._on_write, Client._write, Client._close,
                  if_neg hn]
      · by_cases he : e ∈ [EPIPE, ENOTCONN]
        · cases buf with
          | nil =>
              cases cf <;> cases co <;> cases iw <;>
                simp_all [cstep, Client._on_write, Client._write, Client._close,
                  if_pos he]
          | cons d rest =>
              cases rest <;> cases cf <;> cases co <;> cases iw <;>
                simp_all [cstep, Client._on_write, Client._write, Client._close,
                  if_pos he]
        · cases buf with
          | nil =>
              cases cf <;> cases co <;> cases iw <;>
                simp_all [cstep, Client._on_write, Client._write, Client._close,
                  if_neg he]
          | cons d rest =>
              cases rest <;> cases cf <;> cases co <;> cases iw <;>
                simp_all [cstep, Client._on_write, Client._write, Client._close,
                  if_neg he]

theorem crun_interest_inv (ops : List COp) : ∀ s : ClientState,
    (s.isWriting = true ↔ s.buffer ≠ []) →
    okTrace s ops →
    ((crun s ops).isWriting = true ↔ (crun s ops).buffer ≠ []) := by
  induction ops with
  | nil => intro s h _; exact h
  | cons op ops ih =>
      intro s h hok
      exact ih _ (cstep_interest_inv s op h hok.1) hok.2

/-- C3 (amended): write-interest is registered iff the write buffer is
non-empty, and the pump only issues `removeWriter` while write-interest is
registered (so never double-removes), for every client state reached by a
run of writes, reads, connects, closes and readiness events in which each
write-readiness event is delivered while the endpoint is connected or has
no close intent recorded.  The unrestricted claim fails, and no state
reached through such a violating delivery recovers the iff — see the
counterexample. -/
theorem backpressure_registration (ops : List COp) (r : SendRes)
    (h : okTrace clientInit ops) :
    ((crun clientInit ops).isWriting = true ↔
      (crun clientInit ops).buffer ≠ []) ∧
    (CAct.removeWriter ∈ (Client._on_write (crun clientInit ops) r).acts →
      (crun clientInit ops).isWriting = true) :=
  ⟨crun_interest_inv ops clientInit (by simp [clientInit]) h,
   onwrite_remove_guard _ r⟩

/-- C3 counterexample: write one chunk on a never-connected client,
request close (setting close intent), then let the pump hit an `ENOTCONN`
send failure: `_close` is a no-op (connected flag is down), the buffer is
drained, yet write-interest stays registered — the iff of the claim fails
in this reachable state.  A subsequent successful connect does not repair
it: the endpoint then *is* connected, with an empty buffer and
write-interest still registered. -/
theorem backpressure_registration_cex :
    (crun clientInit [COp.write [1], COp.close,
      COp.onWrite (SendRes.err ENOTCONN)]).buffer = [] ∧
    (crun clientInit [COp.write [1], COp.close,
      COp.onWrite (SendRes.err ENOTCONN)]).isWriting = true ∧
    (crun clientInit [COp.write [1], COp.close,
      COp.onWrite (SendRes.err ENOTCONN),
      COp.connectT 9 80 ConnectRes.ret 0]).buffer = [] ∧
    (crun clientInit [COp.write [1], COp.close,
      COp.onWrite (SendRes.err ENOTCONN),
      COp.connectT 9 80 ConnectRes.ret 0]).isWriting = true ∧
    (crun clientInit [COp.write [1], COp.close,
      COp.onWrite (SendRes.err ENOTCONN),
      COp.connectT 9 80 ConnectRes.ret 0]).connected = true := by
  decide

/-- Witness for C3: after a single `write` (a trace meeting the delivery
condition) the pump's full send emits `removeWriter`, and the theorem
yields that write-interest was indeed registered. -/
theorem backpressure_registration_witness :
    (crun clientInit [COp.write [1]]).isWriting = true :=
  (backpressure_registration [COp.write [1]] (SendRes.ok 1)
    ⟨trivial, trivial⟩).2 (by decide)

/-- C6: when the OS reports the synchronous refusal a connect to a closed
port yields (an errno that is none of the provisional codes), the connect
path fires exactly `Error(e)`, never a `Connected` event, and the
connected flag stays down. -/
theorem connect_refused (s : ClientState) (host : Nat) (port : Nat)
    (e r2 : Nat) (hc : s.connected = false)
    (h1 : e ∉ [EBADF, EINVAL])
    (h2 : e ∉ [EISCONN, EWOULDBLOCK, EINPROGRESS, EALREADY])
    (h0 : e ≠ 0) :
    (TCPClient.connect s host port (ConnectRes.exn e) r2).events
      = [CEvent.error e] ∧
    (TCPClient.connect s host port (ConnectRes.exn e) r2).state.connected
      = false ∧
    ∀ hst tgt, CEvent.connected hst tgt ∉
      (TCPClient.connect s host port (ConnectRes.exn e) r2).events := by
  have hr : (if e ∈ [EBADF, EINVAL] then r2 else e) = e := by
    simp [h1]
  have hcond : e ≠ 0 ∧ e ∉ [EISCONN, EWOULDBLOCK, EINPROGRESS, EALREADY] :=
    ⟨h0, h2⟩
  refine ⟨?_, ?_, ?_⟩ <;>
    simp only [TCPClient.connect, hr, if_pos hcond] <;> simp [hc]

/-- Witness for C6 at `ECONNREFUSED` on a fresh client. -/
theorem connect_refused_witness :
    (TCPClient.connect clientInit 9 80 (ConnectRes.exn ECONNREFUSED) 0).events
      = [CEvent.error ECONNREFUSED] ∧
    (TCPClient.connect clientInit 9 80
      (ConnectRes.exn ECONNREFUSED) 0).state.connected = false := by
  have h := connect_refused clientInit 9 80 ECONNREFUSED 0 (by decide)
    (by decide) (by decide) (by decide)
  exact ⟨h.1, h.2.1⟩

/-- C7: a provisional connect indication (in-progress, already-connected,
would-block, interrupted-alias `EISCONN`/`EWOULDBLOCK`/`EINPROGRESS`/
`EALREADY`) marks the endpoint connected and registers read-readiness with
no `Error` fired, on both the TCP and the UNIX-domain client; any other
non-zero result fires `Error(code)` and returns with the connected flag
untouched. -/
theorem connect_provisional (s t : ClientState) (host port pth hn : Nat)
    (e eu f fu r2 : Nat)
    (he : e ∈ [EISCONN, EWOULDBLOCK, EINPROGRESS, EALREADY])
    (heu : eu ∈ [EISCONN, EWOULDBLOCK, EINPROGRESS, EALREADY])
    (hf1 : f ∉ [EBADF, EINVAL])
    (hf2 : f ∉ [EISCONN, EWOULDBLOCK, EINPROGRESS, EALREADY]) (hf0 : f ≠ 0)
    (hfu : fu ∉ [EISCONN, EWOULDBLOCK, EINPROGRESS, EALREADY]) (hfu0 : fu ≠ 0) :
    (TCPClient.connect s host port (ConnectRes.exn e) r2).state.connected
      = true ∧
    (TCPClient.connect s host port (ConnectRes.exn e) r2).events
      = [CEvent.connected host (ConnTarget.port port)] ∧
    (TCPClient.connect s host port (ConnectRes.exn e) r2).acts
      = [CAct.addReader] ∧
    (UNIXClient.connect t pth hn eu).state.connected = true ∧
    (UNIXClient.connect t pth hn eu).events
      = [CEvent.connected hn (ConnTarget.path pth)] ∧
    (UNIXClient.connect t pth hn eu).acts = [CAct.addReader] ∧
    (TCPClient.connect s host port (ConnectRes.exn f) r2).events
      = [CEvent.error f] ∧
    (TCPClient.connect s host port (ConnectRes.exn f) r2).state.connected
      = s.connected ∧
    (UNIXClient.connect t pth hn fu).events = [CEvent.error fu] ∧
    (UNIXClient.connect t pth hn fu).state.connected = t.connected := by
  have hee : e ∉ [EBADF, EINVAL] := by
    simp only [List.mem_cons, List.mem_singleton, List.not_mem_nil,
      or_false] at he ⊢
    rcases he with h | h | h | h <;> subst h <;> decide
  have hre : (if e ∈ [EBADF, EINVAL] then r2 else e) = e := by simp [hee]
  have hrf : (if f ∈ [EBADF, EINVAL] then r2 else f) = f := by simp [hf1]
  have hce : ¬(e ≠ 0 ∧ e ∉ [EISCONN, EWOULDBLOCK, EINPROGRESS, EALREADY]) :=
    fun h => h.2 he
  have hceu : ¬(eu ≠ 0 ∧ eu ∉ [EISCONN, EWOULDBLOCK, EINPROGRESS, EALREADY]) :=
    fun h => h.2 heu
  have hcf : f ≠ 0 ∧ f ∉ [EISCONN, EWOULDBLOCK, EINPROGRESS, EALREADY] :=
    ⟨hf0, hf2⟩
  have hcfu : fu ≠ 0 ∧ fu ∉ [EISCONN, EWOULDBLOCK, EINPROGRESS, EALREADY] :=
    ⟨hfu0, hfu⟩
  refine ⟨?_, ?_, ?_, ?_, ?_, ?_, ?_, ?_, ?_, ?_⟩ <;>
    simp only [TCPClient.connect, UNIXClient.connect, hre, hrf,
      if_neg hce, if_pos hcf, if_neg hceu, if_pos hcfu]

/-- Witness for C7: `EINPROGRESS` (TCP) and `EALREADY` (UNIX) are
provisional, `ECONNREFUSED` fails on both. -/
theorem connect_provisional_witness :
    (TCPClient.connect clientInit 9 80
      (ConnectRes.exn EINPROGRESS) 0).state.connected = true ∧
    (UNIXClient.connect clientInit 3 1 EALREADY).state.connected = true ∧
    (TCPClient.connect clientInit 9 80
      (ConnectRes.exn ECONNREFUSED) 0).events = [CEvent.error ECONNREFUSED] ∧
    (UNIXClient.connect clientInit 3 1 ECONNREFUSED).events
      = [CEvent.error ECONNREFUSED] := by
  have h := connect_provisional clientInit clientInit 9 80 3 1
    EINPROGRESS EALREADY ECONNREFUSED ECONNREFUSED 0
    (by decide) (by decide) (by decide) (by decide) (by decide)
    (by decide) (by decide)
  exact ⟨h.1, h.2.2.2.1, h.2.2.2.2.2.2.1, h.2.2.2.2.2.2.2.2.1⟩

/-! ## Server component (`class Server`)

Sockets are handles (`Nat`).  `sock` is the listening socket
(`self._sock`, `none` once closed), `clients` is `self._clients`,
`closeq` is `self._closeq`, `buffers` is the `defaultdict(deque)`
`self._buffers`, `writing` is the set of handles registered with the
poller for write-readiness, and `closedSocks` records the OS-level
`sock.close()` calls performed. -/

/-- Events a server component `fire`s. -/
inductive SEvent : Type
  | connect (sock : Nat) (host : Nat) (port : Nat)
  | disconnect (sock : Nat)
  | read (sock : Nat) (data : Bytes)
  | error (sock : Nat) (code : Nat)
  | closed
deriving DecidableEq, Repr

/-- Poller calls a server endpoint makes, per handle. -/
inductive SAct : Type
  | addReader (sock : Nat)
  | addWriter (sock : Nat)
  | removeWriter (sock : Nat)
  | discard (sock : Nat)
deriving DecidableEq, Repr

structure ServerState : Type where
  sock : Option Nat
  clients : List Nat
  closeq : List Nat
  buffers : List (Nat × List Bytes)
  writing : List Nat
  closedSocks : List Nat
deriving DecidableEq, Repr

/-- Output of one server handler. -/
structure SOut : Type where
  state : ServerState
  events : List SEvent
  acts : List SAct
deriving DecidableEq, Repr

/-- A sample post-`__init__` server state: listening socket `0`, no
clients, empty structures. -/
def serverInit : ServerState :=
  { sock := some 0, clients := [], closeq := [], buffers := [],
    writing := [], closedSocks := [] }

namespace Server

/-- `Server._close(sock)`: returns unless the handle is the listening
socket or a tracked client; otherwise discards poller interest, deletes
the handle's buffer entry, removes it from the client set (or clears the
listening socket), closes the OS socket and fires `Disconnect(sock)`. -/
def _close (s : ServerState) (k : Nat) : SOut :=
  if ¬s.sock = some k ∧ k ∉ s.clients then ⟨s, [], []⟩
  else
    let s1 :=
      { s with buffers := aerase s.buffers k,
               writing := s.writing.erase k }
    let s2 :=
      if k ∈ s1.clients then { s1 with clients := s1.clients.erase k }
      else { s1 with sock := none }
    ⟨{ s2 with closedSocks := s2.closedSocks ++ [k] },
     [SEvent.disconnect k], [SAct.discard k]⟩

/-- `Server.close(sock)` for a specific handle (the `sock is not None`
path of `Server.close`; no `Closed()` event is fired on this path).  The
`self._buffers[sock]` emptiness test is a `defaultdict` lookup, so it
inserts an empty deque for a missing handle. -/
def close (s : ServerState) (k : Nat) : SOut :=
  let s0 := { s with buffers := atouch s.buffers k }
  if aget s0.buffers k = [] then _close s0 k
  else if k ∈ s0.closeq then ⟨s0, [], []⟩
  else ⟨{ s0 with closeq := s0.closeq ++ [k] }, [], []⟩

/-- `Server._write(sock, data)`: drops the write when the handle is not a
tracked client; a short send re-inserts the remainder at the front of the
handle's buffer; `EINTR`/`EWOULDBLOCK`/`ENOBUFS` re-insert the whole chunk
at the front; any other `SocketError` fires `Error(sock, e)` then forces
`_close(sock)`. -/
def _write (s : ServerState) (k : Nat) (data : Bytes) (r : SendRes) : SOut :=
  if k ∉ s.clients then ⟨s, [], []⟩
  else
    match r with
    | SendRes.ok nbytes =>
        if nbytes < data.length then
          ⟨{ s with buffers := aprepend s.buffers k (data.drop nbytes) },
           [], []⟩
        else ⟨s, [], []⟩
    | SendRes.err e =>
        if e ∉ [EINTR, EWOULDBLOCK, ENOBUFS] then
          let o := _close s k
          ⟨o.state, SEvent.error k e :: o.events, o.acts⟩
        else ⟨{ s with buffers := aprepend s.buffers k data }, [], []⟩

/-- `Server.write(sock, data)`: register write-interest for the handle if
absent, then append the chunk at the tail of its buffer. -/
def write (s : ServerState) (k : Nat) (data : Bytes) : SOut :=
  if k ∈ s.writing then
    ⟨{ s with buffers := aappend s.buffers k data }, [], []⟩
  else
    ⟨{ s with writing := s.writing ++ [k],
              buffers := aappend s.buffers k data }, [],
     [SAct.addWriter k]⟩

/-- `Server._on_write(sock)` (the `_write` readiness handler): pop the
head chunk of the handle's buffer and `_write` it; once the buffer is
empty, `_close` if the handle is queued for close (removing it from the
queue), else deregister write-interest if registered.  Both buffer
lookups are `defaultdict` lookups. -/
def _on_write (s : ServerState) (k : Nat) (r : SendRes) : SOut :=
  let sA := { s with buffers := atouch s.buffers k }
  let o : SOut :=
    match aget sA.buffers k with
    | [] => ⟨sA, [], []⟩
    | data :: rest =>
        _write { sA with buffers := aset sA.buffers k rest } k data r
  let s2 : ServerState := { o.state with buffers := atouch o.state.buffers k }
  if aget s2.buffers k = [] then
    if k ∈ s2.closeq then
      let s3 := { s2 with closeq := s2.closeq.erase k }
      let o2 := _close s3 k
      ⟨o2.state, o.events ++ o2.events, o.acts ++ o2.acts⟩
    else if k ∈ s2.writing then
      ⟨{ s2 with writing := s2.writing.erase k }, o.events,
       o.acts ++ [SAct.removeWriter k]⟩
    else ⟨s2, o.events, o.acts⟩
  else ⟨s2, o.events, o.acts⟩

/-- Result of `self._sock.accept()`: a new handle plus the peer address,
or a raised `SocketError`. -/
inductive AcceptRes : Type
  | ok (newsock : Nat) (host : Nat) (port : Nat)
  | err (e : Nat)
deriving DecidableEq, Repr

/-- `Server._accept` (non-TLS path): `EWOULDBLOCK`/`EAGAIN`, `EPERM`
(netfilter rejection) and `EMFILE`/`ENOBUFS`/`ENFILE`/`ENOMEM`/
`ECONNABORTED` (resource exhaustion) stop the accept attempt silently;
any other `SocketError` propagates (`Except.error`); a successful accept
marks the new handle non-blocking, registers it for read-readiness,
appends it to the client set and fires `Connect(newsock, host, port)`. -/
def _accept (s : ServerState) (r : AcceptRes) : Except Nat SOut :=
  match r with
  | AcceptRes.err e =>
      if e ∈ [EWOULDBLOCK, EAGAIN] then Except.ok ⟨s, [], []⟩
      else if e = EPERM then Except.ok ⟨s, [], []⟩
      else if e ∈ [EMFILE, ENOBUFS, ENFILE, ENOMEM, ECONNABORTED] then
        Except.ok ⟨s, [], []⟩
      else Except.error e
  | AcceptRes.ok newsock host port =>
      Except.ok ⟨{ s with clients := s.clients ++ [newsock] },
        [SEvent.connect newsock host port], [SAct.addReader newsock]⟩

end Server

/-! ## UDP component (`class UDPServer`, also aliased `UDPClient`)

One socket (`self._sock`), no accepted-client set.  `write` enqueues
`(address, data)` tuples; a short `sendto` re-inserts the *raw bytes*
remainder (not a tuple) at the front, which the pump cannot unpack — the
buffer chunk type keeps both shapes. -/

/-- A chunk of the UDP write buffer: `write` enqueues `(address, data)`
pairs; the short-send path of `UDPServer._write` re-inserts raw bytes. -/
inductive UChunk : Type
  | pair (addr : Addr) (data : Bytes)
  | raw (data : Bytes)
deriving DecidableEq, Repr

/-- Events a UDP endpoint `fire`s. -/
inductive UEvent : Type
  | closed
  | disconnect (sock : Nat)
  | read (addr : Addr) (data : Bytes)
  | error (sock : Nat) (code : Nat)
deriving DecidableEq, Repr

structure UDPState : Type where
  sock : Nat
  buffers : List (Nat × List UChunk)
  closeq : List Nat
  writing : List Nat
  closedSocks : List Nat
deriving DecidableEq, Repr

/-- Output of one UDP handler. -/
structure UOut : Type where
  state : UDPState
  events : List UEvent
  acts : List SAct
deriving DecidableEq, Repr

namespace UDPServer

/-- `UDPServer._close(sock)` (overrides the server one): no tracking
guard — it always discards poller interest, deletes the buffer entry if
present, shuts down and closes the socket (errors swallowed) and fires
`Disconnect(sock)`. -/
def _close (s : UDPState) (k : Nat) : UOut :=
  ⟨{ s with buffers := aerase s.buffers k,
            writing := s.writing.erase k,
            closedSocks := s.closedSocks ++ [k] },
   [UEvent.disconnect k], [SAct.discard k]⟩

/-- `UDPServer.close()` (overrides the server one): fires `Closed()`
first; then either queues the socket for close (buffer non-empty and not
yet queued) or `_close`s it at once.  The buffer emptiness test is a
`defaultdict` lookup. -/
def close (s : UDPState) : UOut :=
  let s0 : UDPState := { s with buffers := atouch s.buffers s.sock }
  if aget s0.buffers s.sock ≠ [] ∧ s.sock ∉ s0.closeq then
    ⟨{ s0 with closeq := s0.closeq ++ [s.sock] }, [UEvent.closed], []⟩
  else
    let o := _close s0 s.sock
    ⟨o.state, UEvent.closed :: o.events, o.acts⟩

/-- `UDPServer._write(address, data)`: a short `sendto` re-inserts the
raw remainder bytes at the front of the buffer; `EPIPE`/`ENOTCONN` force
`_close(self._sock)`; any other `SocketError` fires
`Error(self._sock, e)`. -/
def _write (s : UDPState) (addr : Addr) (data : Bytes) (r : SendRes) : UOut :=
  match r with
  | SendRes.ok nbytes =>
      if nbytes < data.length then
        ⟨{ s with buffers :=
            aprepend s.buffers s.sock (UChunk.raw (data.drop nbytes)) },
         [], []⟩
      else ⟨s, [], []⟩
  | SendRes.err e =>
      if e ∈ [EPIPE, ENOTCONN] then _close s s.sock
      else ⟨s, [UEvent.error s.sock e], []⟩

/-- `UDPServer.write(address, data)`: register write-interest for the one
socket if absent, then append the `(address, data)` tuple at the tail of
its buffer. -/
def write (s : UDPState) (addr : Addr) (data : Bytes) : UOut :=
  if s.sock ∈ s.writing then
    ⟨{ s with buffers := aappend s.buffers s.sock (UChunk.pair addr data) },
     [], []⟩
  else
    ⟨{ s with writing := s.writing ++ [s.sock],
              buffers := aappend s.buffers s.sock (UChunk.pair addr data) },
     [], [SAct.addWriter s.sock]⟩

/-- `UDPServer._on_write(sock)`: pop the head chunk, unpack it as
`(address, data)` — a raw-bytes chunk left by a short send cannot be
unpacked and raises a `TypeError` (`Except.error ()`) — and `_write` it;
once the buffer is empty, `_close` if queued for close, else deregister
write-interest if registered. -/
def _on_write (s : UDPState) (r : SendRes) : Except Unit UOut :=
  let sA : UDPState := { s with buffers := atouch s.buffers s.sock }
  match aget sA.buffers s.sock with
  | [] =>
      Except.ok (tail ⟨sA, [], []⟩)
  | UChunk.raw _ :: _ =>
      Except.error ()
  | UChunk.pair addr data :: rest =>
      Except.ok
        (tail (_write { sA with buffers := aset sA.buffers s.sock rest }
          addr data r))
where
  /-- The post-send part of `UDPServer._on_write` (close-queue drain or
  write-interest removal once the buffer is empty). -/
  tail (o : UOut) : UOut :=
    let s2 : UDPState :=
      { o.state with buffers := atouch o.state.buffers o.state.sock }
    if aget s2.buffers s2.sock = [] then
      if s2.sock ∈ s2.closeq then
        let s3 : UDPState := { s2 with closeq := s2.closeq.erase s2.sock }
        let o2 := _close s3 s3.sock
        ⟨o2.state, o.events ++ o2.events, o.acts ++ o2.acts⟩
      else if s2.sock ∈ s2.writing then
        ⟨{ s2 with writing := s2.writing.erase s2.sock }, o.events,
         o.acts ++ [SAct.removeWriter s2.sock]⟩
      else ⟨s2, o.events, o.acts⟩
    else ⟨s2, o.events, o.acts⟩

end UDPServer

/-- The send results that drain a buffer of chunks with one full send
per chunk. -/
def fullSends : List UChunk → List SendRes
  | [] => []
  | UChunk.pair _ d :: cs => SendRes.ok d.length :: fullSends cs
  | UChunk.raw d :: cs => SendRes.ok d.length :: fullSends cs

/-- Run the UDP write pump over a list of send results. -/
def upump (s : UDPState) : List SendRes → Except Unit (UDPState × List UEvent)
  | [] => Except.ok (s, [])
  | r :: rs =>
      match UDPServer._on_write s r with
      | Except.error e => Except.error e
      | Except.ok o =>
          match upump o.state rs with
          | Except.error e => Except.error e
          | Except.ok p => Except.ok (p.1, o.events ++ p.2)

/-- C2: close with a non-empty buffer only records close intent (no close,
no event); close with an empty buffer closes synchronously, firing
`Disconnected()` (client, when connected) / `Disconnect(handle)` (server,
for a tracked handle) inside the `close()` call itself. -/
theorem close_drain (s t : ClientState) (u v : ServerState) (k l : Nat)
    (hs : s.buffer ≠ [])
    (ht1 : t.buffer = []) (ht2 : t.connected = true)
    (hu1 : aget u.buffers k = []) (hu2 : k ∈ u.clients)
    (hv : aget v.buffers l ≠ []) :
    (Client.close s).events = [] ∧
    (Client.close s).state.sockClosed = s.sockClosed ∧
    (Client.close s).state.buffer = s.buffer ∧
    (Client.close s).state.closeflag = true ∧
    (Client.close t).events = [CEvent.disconnected] ∧
    (Client.close t).state.sockClosed = true ∧
    (Server.close u k).events = [SEvent.disconnect k] ∧
    k ∈ (Server.close u k).state.closedSocks ∧
    (Server.close v l).events = [] ∧
    (Server.close v l).state.closedSocks = v.closedSocks ∧
    l ∈ (Server.close v l).state.closeq := by
  have hu1' : aget (atouch u.buffers k) k = [] := by
    rw [aget_atouch]; exact hu1
  have hv' : aget (atouch v.buffers l) l ≠ [] := by
    rw [aget_atouch]; exact hv
  refine ⟨?_, ?_, ?_, ?_, ?_, ?_, ?_, ?_, ?_, ?_, ?_⟩
  · by_cases hf : s.closeflag = false <;> simp [Client.close, hs, hf]
  · by_cases hf : s.closeflag = false <;> simp [Client.close, hs, hf]
  · by_cases hf : s.closeflag = false <;> simp [Client.close, hs, hf]
  · by_cases hf : s.closeflag = false <;>
      simp_all [Client.close, hs, hf]
  · simp [Client.close, Client._close, ht1, ht2]
  · simp [Client.close, Client._close, ht1, ht2]
  · simp [Server.close, Server._close, hu1', hu2]
  · simp [Server.close, Server._close, hu1', hu2]
  · by_cases hq : l ∈ v.closeq <;> simp [Server.close, hv', hq]
  · by_cases hq : l ∈ v.closeq <;> simp [Server.close, hv', hq]
  · by_cases hq : l ∈ v.closeq <;> simp [Server.close, hv', hq]

/-- A server holding one tracked client `8` with one pending chunk. -/
def srvEx8 : ServerState :=
  { sock := some 0, clients := [8], closeq := [], buffers := [(8, [[1]])],
    writing := [], closedSocks := [] }

/-- Witness for C2 on concrete client and server states. -/
theorem close_drain_witness :
    (Client.close ({ clientInit with buffer := [[1]] })).events = [] ∧
    (Client.close ({ clientInit with connected := true })).events
      = [CEvent.disconnected] ∧
    (Server.close ({ serverInit with clients := [7] }) 7).events
      = [SEvent.disconnect 7] ∧
    (Server.close srvEx8 8).events = [] := by
  have h := close_drain ({ clientInit with buffer := [[1]] })
    ({ clientInit with connected := true })
    ({ serverInit with clients := [7] }) srvEx8 7 8
    (by decide) (by decide) (by decide) (by decide) (by decide) (by decide)
  exact ⟨h.1, h.2.2.2.2.1, h.2.2.2.2.2.2.1, h.2.2.2.2.2.2.2.2.1⟩

/-- C4: the listed accept errnos (would-block/try-again, firewall `EPERM`,
and the resource-exhaustion family) leave the server state — and in
particular the listening socket, client set and buffers — fully unchanged
and fire nothing, while a successful accept appends the new handle to the
client set, registers read-readiness for it and fires
`Connect(handle, host, port)`. -/
theorem accept_resilience (s : ServerState) (e ns ho po : Nat)
    (he : e ∈ [EWOULDBLOCK, EAGAIN, EPERM, EMFILE, ENOBUFS, ENFILE, ENOMEM,
      ECONNABORTED]) :
    Server._accept s (Server.AcceptRes.err e) = Except.ok ⟨s, [], []⟩ ∧
    Server._accept s (Server.AcceptRes.ok ns ho po) =
      Except.ok ⟨{ s with clients := s.clients ++ [ns] },
        [SEvent.connect ns ho po], [SAct.addReader ns]⟩ := by
  constructor
  · simp only [List.mem_cons, List.not_mem_nil, or_false] at he
    rcases he with h|h|h|h|h|h|h|h <;> subst h <;>
      simp [Server._accept, EWOULDBLOCK, EAGAIN, EPERM, EMFILE, ENOBUFS,
        ENFILE, ENOMEM, ECONNABORTED]
  · rfl

/-- Witness for C4: a file-table-full (`ENFILE`) accept failure leaves the
fresh server untouched, and the next accept can succeed. -/
theorem accept_resilience_witness :
    Server._accept serverInit (Server.AcceptRes.err ENFILE)
      = Except.ok ⟨serverInit, [], []⟩ ∧
    Server._accept serverInit (Server.AcceptRes.ok 7 9 80)
      = Except.ok ⟨{ serverInit with clients := [7] },
          [SEvent.connect 7 9 80], [SAct.addReader 7]⟩ := by
  have h := accept_resilience serverInit ENFILE 7 9 80 (by decide)
  exact ⟨h.1, h.2⟩

/-- A sample UDP endpoint state (socket handle `5`). -/
def udpInit : UDPState :=
  { sock := 5, buffers := [], closeq := [], writing := [], closedSocks := [] }

/-- C5 counterexample: on the stream server, a send failing with `EPIPE`
fires `Error(handle, e)` (then forces the close) — the claim that no
`Error` event is fired for broken-pipe is false for `Server._write`,
whose transient list (`EINTR`/`EWOULDBLOCK`/`ENOBUFS`) has no
`EPIPE`/`ENOTCONN` branch. -/
theorem peer_teardown_cex :
    (Server._write ({ serverInit with clients := [7] }) 7 [1]
      (SendRes.err EPIPE)).events
      = [SEvent.error 7 EPIPE, SEvent.disconnect 7] := by
  decide

/-- C5 (amended): a send failing with `EPIPE`/`ENOTCONN` forces an
immediate close everywhere, with a `Disconnected()`/`Disconnect(handle)`
event; the client and the UDP endpoint fire no `Error` event for this
category, but the stream server does fire `Error(handle, code)` before
closing. -/
theorem peer_teardown_errnos (s : ClientState) (v : ServerState)
    (u : UDPState) (a : Addr) (d : Bytes) (e : Nat) (k : Nat)
    (hc : s.connected = true) (he : e ∈ [EPIPE, ENOTCONN])
    (hk : k ∈ v.clients) :
    (Client._write s d (SendRes.err e)).events = [CEvent.disconnected] ∧
    (Client._write s d (SendRes.err e)).state.sockClosed = true ∧
    (Client._write s d (SendRes.err e)).state.connected = false ∧
    (UDPServer._write u a d (SendRes.err e)).events
      = [UEvent.disconnect u.sock] ∧
    u.sock ∈ (UDPServer._write u a d (SendRes.err e)).state.closedSocks ∧
    (Server._write v k d (SendRes.err e)).events
      = [SEvent.error k e, SEvent.disconnect k] ∧
    (Server._write v k d (SendRes.err e)).state.clients
      = v.clients.erase k ∧
    k ∈ (Server._write v k d (SendRes.err e)).state.closedSocks := by
  simp only [List.mem_cons, List.not_mem_nil, or_false] at he
  rcases he with h | h <;> subst h <;>
    refine ⟨?_, ?_, ?_, ?_, ?_, ?_, ?_, ?_⟩ <;>
      simp [Client._write, Client._close, UDPServer._write, UDPServer._close,
        Server._write, Server._close, hc, hk, EPIPE, ENOTCONN, EINTR,
        EWOULDBLOCK, ENOBUFS]

/-- Witness for C5 (amended) at `EPIPE` on concrete endpoints. -/
theorem peer_teardown_errnos_witness :
    (Client._write ({ clientInit with connected := true }) [1]
      (SendRes.err EPIPE)).events = [CEvent.disconnected] ∧
    (UDPServer._write udpInit (2, 3) [1] (SendRes.err EPIPE)).events
      = [UEvent.disconnect 5] ∧
    (Server._write ({ serverInit with clients := [7] }) 7 [1]
      (SendRes.err EPIPE)).events
      = [SEvent.error 7 EPIPE, SEvent.disconnect 7] := by
  have h := peer_teardown_errnos ({ clientInit with connected := true })
    ({ serverInit with clients := [7] }) udpInit (2, 3) [1] EPIPE 7
    (by decide) (by decide) (by decide)
  exact ⟨h.1, h.2.2.2.1, h.2.2.2.2.2.1⟩

/-- C8 counterexample: closing a UDP endpoint twice fires `Closed()` and
`Disconnect(handle)` again on the second call — UDP close is not
idempotent. -/
theorem close_idempotent_cex :
    (UDPServer.close (UDPServer.close udpInit).state).events
      = [UEvent.closed, UEvent.disconnect 5] := by
  decide

/-- C8 (amended): a second close is a no-op for the stream client (no
events, state unchanged), and for the stream server on an untracked
handle no events fire and nothing changes *except* that the
`defaultdict` lookup in `close()` re-creates an empty buffer entry for
the handle; the UDP endpoint is the exception — every `close()` call
fires `Closed()` again (and `Disconnect` again once drained). -/
theorem close_idempotent (s : ClientState) (v : ServerState) (k : Nat)
    (u : UDPState)
    (hk1 : ¬v.sock = some k) (hk2 : k ∉ v.clients)
    (hk3 : aget v.buffers k = []) :
    Client.close (Client.close s).state
      = ⟨(Client.close s).state, [], [], []⟩ ∧
    Server.close v k = ⟨{ v with buffers := atouch v.buffers k }, [], []⟩ ∧
    ((UDPServer.close u).events).head? = some UEvent.closed := by
  refine ⟨?_, ?_, ?_⟩
  · rcases s with ⟨buf, cf, co, iw, hr, sc, h1, p1, pa⟩
    cases buf <;> cases cf <;> cases co <;>
      simp [Client.close, Client._close]
  · have hk3' : aget (atouch v.buffers k) k = [] := by
      rw [aget_atouch]; exact hk3
    simp [Server.close, Server._close, hk3', hk1, hk2]
  · simp only [UDPServer.close, UDPServer._close]
    split <;> rfl

/-- Witness for C8 (amended): double close of a fresh client; server close
of the untracked handle `9` touches only the buffer map. -/
theorem close_idempotent_witness :
    Client.close (Client.close clientInit).state
      = ⟨(Client.close clientInit).state, [], [], []⟩ ∧
    Server.close serverInit 9 = ⟨{ serverInit with buffers := [(9, [])] },
      [], []⟩ := by
  have h := close_idempotent clientInit serverInit 9 udpInit
    (by decide) (by decide) (by decide)
  exact ⟨h.1, h.2.1⟩

/-! ## UDP close-drain lemmas -/

theorem utail_nonempty (o : UOut)
    (hk : akey o.state.buffers o.state.sock = true)
    (h : aget o.state.buffers o.state.sock ≠ []) :
    UDPServer._on_write.tail o = ⟨o.state, o.events, o.acts⟩ := by
  simp only [UDPServer._on_write.tail, atouch_of_akey _ _ hk]
  rw [if_neg h]

theorem utail_closepath (o : UOut)
    (h : aget o.state.buffers o.state.sock = [])
    (hq : o.state.sock ∈ o.state.closeq) :
    UDPServer._on_write.tail o =
      ⟨{ sock := o.state.sock,
         buffers := aerase (atouch o.state.buffers o.state.sock) o.state.sock,
         closeq := (o.state.closeq).erase o.state.sock,
         writing := (o.state.writing).erase o.state.sock,
         closedSocks := o.state.closedSocks ++ [o.state.sock] },
       o.events ++ [UEvent.disconnect o.state.sock],
       o.acts ++ [SAct.discard o.state.sock]⟩ := by
  have h2 : aget (atouch o.state.buffers o.state.sock) o.state.sock = [] := by
    rw [aget_atouch]; exact h
  simp [UDPServer._on_write.tail, UDPServer._close, h2, hq]

theorem uonwrite_pair_full (u : UDPState) (a : Addr) (d : Bytes)
    (rest : List UChunk)
    (hb : aget u.buffers u.sock = UChunk.pair a d :: rest) :
    UDPServer._on_write u (SendRes.ok d.length)
      = Except.ok (UDPServer._on_write.tail
          ⟨{ u with buffers := aset u.buffers u.sock rest }, [], []⟩) := by
  have hkey : akey u.buffers u.sock = true :=
    akey_of_aget_ne _ _ (by rw [hb]; simp)
  have hA : atouch u.buffers u.sock = u.buffers := atouch_of_akey _ _ hkey
  simp only [UDPServer._on_write, hA, hb, UDPServer._write]
  simp

theorem upump_drain (chunks : List UChunk) : ∀ u : UDPState,
    aget u.buffers u.sock = chunks → chunks ≠ [] →
    (∀ c ∈ chunks, ∃ x y, c = UChunk.pair x y) →
    u.sock ∈ u.closeq →
    ∃ z : UDPState,
      upump u (fullSends chunks)
        = Except.ok (z, [UEvent.disconnect u.sock]) ∧
      u.sock ∈ z.closedSocks ∧ aget z.buffers z.sock = [] := by
  induction chunks with
  | nil => intro u _ hne _ _; exact absurd rfl hne
  | cons c rest ih =>
      intro u hb hne hp hq
      obtain ⟨a, d, rfl⟩ := hp c (List.mem_cons_self c rest)
      have hkey : akey u.buffers u.sock = true :=
        akey_of_aget_ne _ _ (by rw [hb]; simp)
      have hstep := uonwrite_pair_full u a d rest hb
      have hkey2 : akey (aset u.buffers u.sock rest) u.sock = true := by
        rw [akey_aset]; exact hkey
      have hget2 : aget (aset u.buffers u.sock rest) u.sock = rest :=
        aget_aset_of_akey _ _ _ hkey
      cases rest with
      | nil =>
          have htail := utail_closepath
            ⟨{ u with buffers := aset u.buffers u.sock [] }, [], []⟩
            (by simpa using hget2) (by simpa using hq)
          refine ⟨{ sock := u.sock,
                    buffers := aerase (atouch (aset u.buffers u.sock [])
                      u.sock) u.sock,
                    closeq := u.closeq.erase u.sock,
                    writing := u.writing.erase u.sock,
                    closedSocks := u.closedSocks ++ [u.sock] }, ?_, ?_, ?_⟩
          · simp [fullSends, upump, hstep, htail]
          · simp
          · simp [aget_aerase]
      | cons c2 r2 =>
          have htail := utail_nonempty
            ⟨{ u with buffers := aset u.buffers u.sock (c2 :: r2) }, [], []⟩
            (by simpa using hkey2) (by simp [hget2])
          obtain ⟨z, hz1, hz2, hz3⟩ :=
            ih ({ u with buffers := aset u.buffers u.sock (c2 :: r2) })
              (by simpa using hget2) (by simp)
              (fun x hx => hp x (List.mem_cons_of_mem _ hx))
              (by simpa using hq)
          refine ⟨z, ?_, by simpa using hz2, hz3⟩
          simp [fullSends, upump, hstep, htail, hz1]

/-- C9: `UDPServer.write(address, data)` enqueues the `(address, data)`
pair on the single socket's buffer (registering write-interest when
absent); `UDPServer.close()` follows one terminal path with no per-client
iteration: an empty buffer is closed at once, firing both `Closed()` and
`Disconnect(handle)`; a non-empty buffer fires `Closed()`, queues the
socket, and the write pump, once it drains the buffer, fires
`Disconnect(handle)` and tears the socket down. -/
theorem udp_write_close (u v w : UDPState) (a : Addr) (d : Bytes)
    (chunks : List UChunk)
    (hv : aget v.buffers v.sock = [])
    (hw : aget w.buffers w.sock = chunks) (hne : chunks ≠ [])
    (hp : ∀ c ∈ chunks, ∃ x y, c = UChunk.pair x y)
    (hq : w.sock ∉ w.closeq) :
    aget (UDPServer.write u a d).state.buffers u.sock
      = aget u.buffers u.sock ++ [UChunk.pair a d] ∧
    (u.sock ∉ u.writing →
      (UDPServer.write u a d).acts = [SAct.addWriter u.sock]) ∧
    (UDPServer.close v).events = [UEvent.closed, UEvent.disconnect v.sock] ∧
    v.sock ∈ (UDPServer.close v).state.closedSocks ∧
    (UDPServer.close w).events = [UEvent.closed] ∧
    w.sock ∈ (UDPServer.close w).state.closeq ∧
    (UDPServer.close w).state.closedSocks = w.closedSocks ∧
    (∃ z : UDPState,
      upump (UDPServer.close w).state (fullSends chunks)
        = Except.ok (z, [UEvent.disconnect w.sock]) ∧
      w.sock ∈ z.closedSocks ∧ aget z.buffers z.sock = []) := by
  have hv' : aget (atouch v.buffers v.sock) v.sock = [] := by
    rw [aget_atouch]; exact hv
  have hw' : aget (atouch w.buffers w.sock) w.sock = chunks := by
    rw [aget_atouch]; exact hw
  have hwc : aget (atouch w.buffers w.sock) w.sock ≠ [] ∧
      w.sock ∉ w.closeq := ⟨by rw [hw']; exact hne, hq⟩
  have hclose : UDPServer.close w =
      ⟨{ w with buffers := atouch w.buffers w.sock,
                closeq := w.closeq ++ [w.sock] }, [UEvent.closed], []⟩ := by
    simp only [UDPServer.close]
    rw [if_pos hwc]
  refine ⟨?_, ?_, ?_, ?_, ?_, ?_, ?_, ?_⟩
  · by_cases hm : u.sock ∈ u.writing <;>
      simp [UDPServer.write, hm, aget_aappend]
  · intro hm
    simp [UDPServer.write, hm]
  · simp [UDPServer.close, UDPServer._close, hv']
  · simp [UDPServer.close, UDPServer._close, hv']
  · rw [hclose]
  · rw [hclose]; simp
  · rw [hclose]
  · rw [hclose]
    obtain ⟨z, hz1, hz2, hz3⟩ := upump_drain chunks
      ({ w with buffers := atouch w.buffers w.sock,
                closeq := w.closeq ++ [w.sock] })
      (by simpa using hw') hne hp (by simp)
    exact ⟨z, by simpa using hz1, by simpa using hz2, hz3⟩

/-- A UDP endpoint with one pending `(address, data)` chunk on socket
`4`. -/
def udpEx4 : UDPState :=
  { sock := 4, buffers := [(4, [UChunk.pair (2, 3) [9]])], closeq := [],
    writing := [4], closedSocks := [] }

/-- Witness for C9: enqueue on a fresh endpoint, immediate close on an
empty buffer, deferred close on a pending chunk. -/
theorem udp_write_close_witness :
    aget (UDPServer.write udpInit (2, 3) [9]).state.buffers 5
      = [UChunk.pair (2, 3) [9]] ∧
    (UDPServer.close udpInit).events
      = [UEvent.closed, UEvent.disconnect 5] ∧
    (UDPServer.close udpEx4).events = [UEvent.closed] := by
  have h := udp_write_close udpInit udpInit udpEx4 (2, 3) [9]
    [UChunk.pair (2, 3) [9]] (by decide) (by decide) (by decide)
    (by
      rintro c hc
      rw [List.mem_singleton] at hc
      subst hc
      exact ⟨(2, 3), [9], rfl⟩)
    (by decide)
  exact ⟨by simpa using h.1, h.2.2.1, h.2.2.2.2.1⟩
